import Mathlib

/-!
Verification development for the cookie-decliner browser extension
(`src/dom-utils.ts`, `src/content-script.ts`, `src/api-handler.ts`,
`src/keywords.ts`, `src/selectors.ts`).

The TypeScript sources are shallowly embedded: pure functions become Lean
functions over explicit data (strings, lists), the mutable module-level
state of `APIHandler` and the `CookieDecliner` instance becomes an explicit
state record with a step function over the possible triggers, and code that
can throw is modelled with `Option` (`none` = an exception propagates).
Timestamps (`Date.now()`) are modelled as `Int` milliseconds.

Modelling conventions:
* `Elem` models an HTML DOM element as seen by the code: its
  `textContent`, `className`, `id`, `aria-label` attribute, tag name, the
  (abstract) result of the computed-style visibility test, its object
  identity, and its chain of ancestor elements (nearest parent first).
  The model's domain is HTML elements, so the `instanceof HTMLElement`
  guards in the source are true on every modelled element (non-HTML
  elements such as SVG nodes, whose `className` is not a string, are
  outside the model).
* JavaScript's `String.prototype.includes` / `toLowerCase` are modelled by
  `strIncludes` / `jsToLower` (`toLowerCase` differs from the ASCII
  `Char.toLower` only on non-ASCII letters, which never decide any of the
  properties below).
* JavaScript regular expressions used by the matcher are embedded as
  explicit lazy parsers on character lists with the same backtracking
  semantics (the `.` character class is modelled as "any character";
  selectors are single-line strings).
-/

/-- JavaScript `hay.includes(needle)` on character lists: `needle` occurs as a
contiguous substring. -/
def includesAux (needle : List Char) : List Char → Bool
  | [] => needle.isEmpty
  | c :: cs => needle.isPrefixOf (c :: cs) || includesAux needle cs

/-- JavaScript `hay.includes(needle)` on strings. -/
def strIncludes (hay needle : String) : Bool :=
  includesAux needle.toList hay.toList

/-- JavaScript `s.toLowerCase()`, modelled character-wise. -/
def jsToLower (s : String) : String :=
  String.mk (s.toList.map Char.toLower)

/-- JavaScript `s.startsWith(p)`. -/
def jsStartsWith (s p : String) : Bool :=
  p.toList.isPrefixOf s.toList

/-- JavaScript `s.endsWith(p)`. -/
def jsEndsWith (s p : String) : Bool :=
  p.toList.isSuffixOf s.toList

namespace Keywords

/-- Source: `EXCLUDE_KEYWORDS` in `keywords.ts`. -/
def EXCLUDE_KEYWORDS : List String :=
  ["signin", "login", "account", "user", "profile", "membership",
   "loyalty", "newsletter", "subscribe", "register", "checkout"]

/-- Source: `COOKIE_KEYWORDS` in `keywords.ts`. -/
def COOKIE_KEYWORDS : List String :=
  ["cookie", "consent", "privacy", "gdpr", "tracking", "analytics",
   "decline", "reject", "deny", "refuse", "avvis", "avslå",
   "personvern", "samtykke", "cookieinnstillinger", "tilpass",
   "nødvendige", "innstillinger", "flere", "complianz", "cmplz",
   "informasjonskapsler", "idun-consent", "usercentrics", "uc-"]

/-- Source: `COOKIE_CONTENT_KEYWORDS.norwegian` in `keywords.ts`. -/
def COOKIE_CONTENT_KEYWORDS_norwegian : List String :=
  ["cookie", "samtykke", "personvern", "avvis", "godta", "tilpass",
   "cookieinnstillinger", "persondata", "sporingsteknologi",
   "nødvendige", "innstillinger", "flere", "proteinfabrikken",
   "godkjenn", "lagre", "informasjonskapsler", "opplevelse",
   "partnere", "retningslinjer", "markedsføring"]

/-- Source: `getAllCookieKeywords()` in `keywords.ts`: `COOKIE_KEYWORDS`
followed by the flattened values of `COOKIE_CONTENT_KEYWORDS`. -/
def getAllCookieKeywords : List String :=
  COOKIE_KEYWORDS ++ COOKIE_CONTENT_KEYWORDS_norwegian

end Keywords

/-- Text/class/id data of one ancestor element, as read by
`hasParentCookieContext` and `hasCookieContent`. -/
structure NodeInfo where
  textContent : String
  className : String
  id : String
deriving DecidableEq, Repr

/-- An HTML DOM element as consumed by the embedded code paths.
`visible` is the abstract outcome of `isElementVisible`'s computed-style and
bounding-box test (an external browser primitive); `nodeId` is the object
identity used by the `processed` set; `ancestors` is the parent chain,
nearest parent first. `ariaLabel = none` models a missing `aria-label`
attribute (`getAttribute` returning `null`). -/
structure Elem where
  nodeId : Nat
  tag : String
  textContent : String
  className : String
  id : String
  ariaLabel : Option String
  visible : Bool
  ancestors : List NodeInfo
deriving DecidableEq, Repr

namespace DOMUtils

open Keywords

/-- The combined lower-cased text sources computed at the top of
`DOMUtils.isCookieRelatedButton` (`allText`). -/
def allTextOf (e : Elem) : String :=
  let text := jsToLower e.textContent
  let className := jsToLower e.className
  let id := jsToLower e.id
  let ariaLabel := jsToLower (e.ariaLabel.getD "")
  jsToLower (text ++ " " ++ className ++ " " ++ id ++ " " ++ ariaLabel)

/-- The exclusion test of `isCookieRelatedButton`:
`EXCLUDE_KEYWORDS.some(keyword => allText.includes(keyword))`. -/
def hasExcludeKeyword (e : Elem) : Bool :=
  EXCLUDE_KEYWORDS.any (fun keyword => strIncludes (allTextOf e) keyword)

/-- The element-own cookie test of `isCookieRelatedButton`:
`getAllCookieKeywords().some(keyword => allText.includes(keyword))`. -/
def hasOwnCookieKeyword (e : Elem) : Bool :=
  getAllCookieKeywords.any (fun keyword => strIncludes (allTextOf e) keyword)

/-- The `parentContent` string built for one ancestor inside
`hasParentCookieContext`. -/
def parentContentOf (p : NodeInfo) : String :=
  jsToLower p.textContent ++ " " ++ jsToLower p.className ++ " " ++ jsToLower p.id

/-- Loop body of `DOMUtils.hasParentCookieContext`:
`while (parent && levels < 5)` walks the parent chain, checking
`COOKIE_KEYWORDS` against each ancestor's text/class/id. -/
def hasParentCookieContextAux : List NodeInfo → Nat → Bool
  | [], _ => false
  | p :: rest, levels =>
    if levels < 5 then
      if COOKIE_KEYWORDS.any (fun keyword => strIncludes (parentContentOf p) keyword) then
        true
      else
        hasParentCookieContextAux rest (levels + 1)
    else false

/-- Source: `DOMUtils.hasParentCookieContext(element)` (starts at
`element.parentElement` with `levels = 0`). -/
def hasParentCookieContext (e : Elem) : Bool :=
  hasParentCookieContextAux e.ancestors 0

/-- Source: `DOMUtils.isCookieRelatedButton(element)`. The
`element instanceof HTMLElement` guard is true on the model's domain. -/
def isCookieRelatedButton (e : Elem) : Bool :=
  if hasExcludeKeyword e then false
  else if hasOwnCookieKeyword e then true
  else if hasParentCookieContext e then true
  else false

/-- Source: `DOMUtils.hasCookieContent(elements)` (used by the mutation
observer); only the added elements' own text/class/id are consulted. -/
def hasCookieContent (es : List NodeInfo) : Bool :=
  es.any (fun e =>
    let content := jsToLower e.textContent ++ " " ++ jsToLower e.className ++ " " ++ jsToLower e.id
    COOKIE_KEYWORDS.any (fun keyword => strIncludes content keyword))

end DOMUtils

namespace Selector

/-- Is the character one of the quote characters accepted by the `["']`
classes of the contains-pattern? -/
def isQuote (c : Char) : Bool := c == '"' || c == '\''

/-- Character list of the literal `:contains(` occurring in both regular
expressions of `dom-utils.ts`. -/
def marker : List Char := [':', 'c', 'o', 'n', 't', 'a', 'i', 'n', 's', '(']

/-- Does the coarse gate regex `^(.*):(contains\(.+\))(.*)$` of
`findElementsBySelector` match starting exactly here: the literal
`:contains(` followed (with at least one interposed character, `.+` lazy
minimum) by a closing parenthesis somewhere later. -/
def gateAt (l : List Char) : Bool :=
  marker.isPrefixOf l && ((l.drop 10).drop 1).contains ')'

/-- Whole-string match of the coarse gate regex
`^(.*):(contains\(.+\))(.*)$`: it matches iff some position carries
`gateAt`. -/
def matchesContainsGate : List Char → Bool
  | [] => false
  | c :: cs => gateAt (c :: cs) || matchesContainsGate cs

/-- After the lazy `(.+?)` has consumed some characters, can the remaining
regex `["']\)` match right here? -/
def stopsHere : List Char → Bool
  | q :: c :: _ => isQuote q && c == ')'
  | _ => false

/-- The lazy `(.+?)` of `^(.*?):contains\(["'](.+?)["']\)(.*)$`: consume at
least one character and stop at the earliest point where a quote character
and `)` follow; returns the captured text and the remaining characters
after the `)`. -/
def splitText : List Char → Option (List Char × List Char)
  | [] => none
  | c :: rest =>
    if stopsHere rest then some ([c], rest.drop 2)
    else
      match splitText rest with
      | some (t, tl) => some (c :: t, tl)
      | none => none

/-- Attempt to match `:contains\(["'](.+?)["']\)` starting exactly at the
head of `l`; returns the captured text on success. -/
def tryParseAt (l : List Char) : Option (List Char) :=
  if marker.isPrefixOf l then
    match l.drop 10 with
    | q :: body =>
      if isQuote q then
        match splitText body with
        | some (t, _) => some t
        | none => none
      else none
    | [] => none
  else none

/-- Scanner for the lazy `(.*?)` group: the first position at which the rest
of the fine regex matches wins; `acc` holds the (reversed) characters
consumed into the base-selector group so far. -/
def parseContainsAux (acc : List Char) : List Char → Option (List Char × List Char)
  | [] => none
  | c :: cs =>
    match tryParseAt (c :: cs) with
    | some t => some (acc.reverse, t)
    | none => parseContainsAux (c :: acc) cs

/-- Full match of `findElementsWithText`'s regex
`^(.*?):contains\(["'](.+?)["']\)(.*)$` against a selector string: returns
the base-selector capture and the text capture (the trailing `(.*)` capture
is unused by the source). -/
def parseContains (l : List Char) : Option (List Char × List Char) :=
  parseContainsAux [] l

end Selector

/-- The browser document boundary: `queryAll` models
`document.querySelectorAll`, with `none` standing for a thrown
`SyntaxError` on a malformed selector (per the DOM standard the empty
string and unparsable selectors throw). -/
structure Doc where
  queryAll : String → Option (List Elem)

namespace DOMUtils

open Selector

/-- Source: `DOMUtils.findElementsWithText(selector)`. A parse failure of
the contains-pattern returns `[]`; a successful parse feeds the base
capture (note: the `= '*'` destructuring default never fires, because an
empty capture is `''`, not `undefined`) straight into
`document.querySelectorAll`, whose exception — `queryAll _ = none` — is not
caught here and propagates (`none` result). -/
def findElementsWithText (doc : Doc) (selector : String) : Option (List Elem) :=
  match parseContains selector.toList with
  | none => some []
  | some (base, text) =>
    let baseSelector := String.mk base
    let textContent := String.mk text
    match doc.queryAll baseSelector with
    | none => none
    | some elements =>
      some (elements.filter (fun e =>
        strIncludes (jsToLower e.textContent) (jsToLower textContent)))

/-- Source: `DOMUtils.findElementsBySelector(selector)`. Selectors matching
the coarse `:contains()` gate are routed to `findElementsWithText`; other
selectors go to `document.querySelectorAll` inside `try/catch`, so a native
`SyntaxError` is swallowed and `[]` is returned. A `none` result means an
exception escaped to the caller. -/
def findElementsBySelector (doc : Doc) (selector : String) : Option (List Elem) :=
  if matchesContainsGate selector.toList then
    findElementsWithText doc selector
  else
    match doc.queryAll selector with
    | none => some []
    | some es => some es

end DOMUtils

/-- A JavaScript value as far as the message-validation code inspects one:
`typeof` distinctions for `name`/`type`/`choice` plus the concrete payload
strings and numbers (numbers as `Int`; no fractional value is ever
compared). `other` covers functions, nested objects, booleans, `null`. -/
inductive JSVal where
  | str (s : String)
  | num (n : Int)
  | undefined
  | other
deriving DecidableEq, Repr

/-- A JavaScript object as inspected by `isValidPostMessageData`:
its own enumerable properties, whether its prototype is `null`
(`Object.create(null)`) rather than `Object.prototype` (every
structured-clone payload delivered by `postMessage` has
`Object.prototype`), the `Object.isFrozen` / `Object.isSealed` flags, and
whether `JSON.stringify` succeeds on it (`false` models a circular
reference; cyclic data has no inductive representative, so the outcome of
`JSON.stringify` is carried as a field). -/
structure JSObject where
  ownProps : List (String × JSVal)
  nullProto : Bool
  frozen : Bool
  sealed : Bool
  jsonSerializable : Bool
deriving DecidableEq, Repr

/-- Data of a `message` event: either an object or a non-object primitive
(string, number, boolean, `null`, `undefined` — all rejected by the
`typeof data !== 'object' || data === null` guards identically). -/
inductive MessageData where
  | object (o : JSObject)
  | nonObject
deriving DecidableEq, Repr

namespace Message

/-- Property names inherited from `Object.prototype`, visible to the
JavaScript `in` operator on any object whose prototype chain includes
`Object.prototype`. -/
def objectProtoProps : List String :=
  ["constructor", "hasOwnProperty", "isPrototypeOf", "propertyIsEnumerable",
   "toLocaleString", "toString", "valueOf", "__defineGetter__",
   "__defineSetter__", "__lookupGetter__", "__lookupSetter__", "__proto__"]

/-- The JavaScript `key in obj` test: own property or (unless the object was
created with a `null` prototype) a property inherited from
`Object.prototype`. -/
def keyIn (o : JSObject) (key : String) : Bool :=
  o.ownProps.any (fun p => p.1 == key) ||
    (!o.nullProto && objectProtoProps.contains key)

/-- Property read `obj[key]`: the own property's value, else `undefined`
(none of the keys the handler reads — `name`, `type`, `choice`, `source` —
exists on `Object.prototype`). -/
def getProp (o : JSObject) (key : String) : JSVal :=
  match o.ownProps.find? (fun p => p.1 == key) with
  | some p => p.2
  | none => JSVal.undefined

/-- The `dangerousKeys` array of `CookieDecliner.isValidPostMessageData`. -/
def dangerousKeys : List String :=
  ["__proto__", "constructor", "prototype", "__defineGetter__",
   "__defineSetter__", "__lookupGetter__", "__lookupSetter__",
   "hasOwnProperty", "isPrototypeOf", "propertyIsEnumerable",
   "toLocaleString", "toString", "valueOf"]

/-- Source: `CookieDecliner.isValidPostMessageData(data)`: non-objects are
rejected; then each dangerous key is tested with `key in obj`; then
frozen/sealed objects and objects `JSON.stringify` chokes on are rejected;
finally the declared fields, if present, must have the declared types. -/
def isValidPostMessageData : MessageData → Bool
  | .nonObject => false
  | .object o =>
    if dangerousKeys.any (fun key => keyIn o key) then false
    else if o.frozen || o.sealed then false
    else if !o.jsonSerializable then false
    else if keyIn o "name" && !(match getProp o "name" with | .str _ => true | _ => false) then false
    else if keyIn o "type" && !(match getProp o "type" with | .str _ => true | _ => false) then false
    else if keyIn o "choice" &&
        !(match getProp o "choice" with | .num _ => true | .str _ => true | _ => false) then false
    else true

/-- Source: `CookieDecliner.sanitizeString(input)`:
`input.replace(/[<>"/\\&]/g, '').substring(0, 100)`. -/
def sanitizeString (s : String) : String :=
  String.mk ((s.toList.filter
    (fun c => !(['<', '>', '"', '/', '\\', '&'].contains c))).take 100)

/-- Source: `CookieDecliner.isOwnMessage(data)`. -/
def isOwnMessage : MessageData → Bool
  | .object o =>
    getProp o "source" == JSVal.str "cookie-decliner" ||
      getProp o "type" == JSVal.str "sp.choice"
  | .nonObject => false

/-- The trusted-domain allow-list of `CookieDecliner.isTrustedOrigin`. -/
def trustedDomains : List String :=
  ["sourcepoint.mgr.consensu.org", "ccpa-notice.sp-prod.net",
   "notice.sp-prod.net", "cmp.quantcast.com", "cmp.osano.com",
   "consent.cookiebot.com", "consent.trustarc.com", "cdn.cookielaw.org"]

/-- Split a character list at the first `://`; returns the scheme part and
the remainder. -/
def splitSchemeSep : List Char → Option (List Char × List Char)
  | ':' :: '/' :: '/' :: rest => some ([], rest)
  | c :: cs =>
    match splitSchemeSep cs with
    | some (a, b) => some (c :: a, b)
    | none => none
  | [] => none

/-- Ends-the-hostname characters of a URL authority. -/
def hostEnd (c : Char) : Bool := c == ':' || c == '/' || c == '?' || c == '#'

/-- Hostname extraction of `new URL(origin).hostname`, modelled for origin
strings of the shape `scheme://host[:port]` (the only shape a browser
delivers as `event.origin`); `none` models the constructor throwing, which
`isTrustedOrigin` catches and maps to `false`. The hostname is lower-cased
as `new URL` does. -/
def parseURLHostname (s : String) : Option String :=
  match splitSchemeSep s.toList with
  | none => none
  | some (scheme, rest) =>
    let host := rest.takeWhile (fun c => !hostEnd c)
    if scheme.isEmpty || host.isEmpty then none
    else some (String.mk (host.map Char.toLower))

/-- Source: `CookieDecliner.isTrustedOrigin(origin)`; `ownOrigin` is
`window.location.origin`. Same origin is compared on the raw string; every
other origin is parsed and only its hostname is compared against the
allow-list (exact host or dot-separated subdomain). -/
def isTrustedOrigin (ownOrigin origin : String) : Bool :=
  if origin == ownOrigin then true
  else
    match parseURLHostname origin with
    | none => false
    | some host =>
      trustedDomains.any (fun domain =>
        host == domain || jsEndsWith host ("." ++ domain))

/-- Source: `CookieDecliner.isSourcePointMessage(event)`: re-runs the
origin gate, then requires a string `name` property starting with `sp.`. -/
def isSourcePointMessage (ownOrigin origin : String) (data : MessageData) : Bool :=
  if !isTrustedOrigin ownOrigin origin then false
  else
    match data with
    | .object o =>
      match getProp o "name" with
      | .str nm => jsStartsWith nm "sp."
      | _ => false
    | .nonObject => false

end Message

/-- Combined mutable state of the orchestrator: the static fields of
`APIHandler` (`consentProcessed`, `lastDeclineAttempt`,
`declineAttemptCount`) and the `CookieDecliner` instance fields
(`consentProcessed`, the `processed` element set — kept as the list of
object identities — and whether the mutation observer is currently
connected). -/
structure SysState where
  apiProcessed : Bool
  lastDeclineAttempt : Int
  declineAttemptCount : Nat
  csProcessed : Bool
  processedElems : List Nat
  observerConnected : Bool
deriving DecidableEq, Repr

/-- Observable side effects of a trigger invocation. `click` is a DOM click
on the element with the given identity; `vendorDecline` covers the vendor
API decline calls and iframe decline messaging performed by
`declineAllConsent` after the rate-limit gate; the `schedule` effects are
`setTimeout` registrations whose (flag-guarded) bodies appear as later
triggers of their own. -/
inductive Effect where
  | click (nodeId : Nat)
  | vendorDecline
  | scheduleScan
  | scheduleDecline
deriving DecidableEq, Repr

namespace Handler

/-- Source: `APIHandler.RATE_LIMIT_MS`. -/
def RATE_LIMIT_MS : Int := 2000

/-- Source: `APIHandler.MAX_DECLINE_ATTEMPTS`. -/
def MAX_DECLINE_ATTEMPTS : Nat := 5

/-- Source: `APIHandler.shouldAllowDeclineAttempt()`; `now` is
`Date.now()`. -/
def shouldAllowDeclineAttempt (st : SysState) (now : Int) : Bool :=
  if st.declineAttemptCount ≥ MAX_DECLINE_ATTEMPTS then false
  else if now - st.lastDeclineAttempt < RATE_LIMIT_MS then false
  else true

/-- Source: `APIHandler.recordDeclineAttempt()`. -/
def recordDeclineAttempt (st : SysState) (now : Int) : SysState :=
  { st with lastDeclineAttempt := now,
            declineAttemptCount := st.declineAttemptCount + 1 }

/-- Source: `APIHandler.setConsentProcessed(processed)` — note it touches
only the `APIHandler` flag, not the `CookieDecliner` flag and not the
observer. -/
def setConsentProcessed (st : SysState) (processed : Bool) : SysState :=
  { st with apiProcessed := processed }

/-- Environment of one `declineAllConsent` run: whether the available
vendor surface reports success, i.e. whether some path of the
TCF-`setAllConsentAndLegitInterest` callback or
`tryAlternativeDeclineMethods` (a present `_sp_` object) reaches
`setConsentProcessed(true)`. The concrete branching over `__tcfapi`/`_sp_`
presence only determines this bit and which vendor calls are issued; both
collapse into `vendorDecline`. -/
structure DeclineEnv where
  succeeds : Bool
deriving DecidableEq, Repr

/-- Source: `APIHandler.declineAllConsent()`: bail out if consent is already
processed, then apply the rate-limit gate, then record the attempt and
perform the vendor decline work. -/
def declineAllConsent (st : SysState) (now : Int) (env : DeclineEnv) :
    SysState × List Effect :=
  if st.apiProcessed then (st, [])
  else if !shouldAllowDeclineAttempt st now then (st, [])
  else
    let st1 := recordDeclineAttempt st now
    if env.succeeds then (setConsentProcessed st1 true, [Effect.vendorDecline])
    else (st1, [Effect.vendorDecline])

end Handler

namespace Decliner

open Handler Message DOMUtils

/-- Source: `CookieDecliner.markConsentProcessed()`: sets the instance
flag, sets the `APIHandler` flag, and disconnects the mutation observer. -/
def markConsentProcessed (st : SysState) : SysState :=
  { st with csProcessed := true, apiProcessed := true, observerConnected := false }

/-- Source: `CookieDecliner.processElement(element)`: visibility gate,
already-attempted gate, cookie-context gate, then click + record + mark. -/
def processElement (st : SysState) (e : Elem) : SysState × List Effect × Bool :=
  if !e.visible then (st, [], false)
  else if st.processedElems.contains e.nodeId then (st, [], false)
  else if !isCookieRelatedButton e then (st, [], false)
  else
    (markConsentProcessed { st with processedElems := e.nodeId :: st.processedElems },
     [Effect.click e.nodeId], true)

/-- The selector loop of `findAndClickDeclineButton`: `dom` is the
concatenation, in catalog order, of the elements each selector matched;
the loop stops at the first element `processElement` accepts. -/
def scanElems (st : SysState) : List Elem → SysState × List Effect
  | [] => (st, [])
  | e :: rest =>
    match processElement st e with
    | (st1, effs, true) => (st1, effs)
    | (_, _, false) => scanElems st rest

/-- Source: `CookieDecliner.findAndClickDeclineButton()`; returns
immediately when either processed flag is set. -/
def findAndClickDeclineButton (st : SysState) (dom : List Elem) :
    SysState × List Effect :=
  if st.csProcessed || st.apiProcessed then (st, [])
  else scanElems st dom

/-- Source: `CookieDecliner.handleSourcePointMessage(data)`: payload
validation gate, then dispatch on the sanitized `name` — `sp.showMessage`
schedules a (guarded) `declineAllConsent`, `sp.hideMessage` calls
`markConsentProcessed` directly; the `choice` branch only validates and
performs no state change. -/
def handleSourcePointMessage (st : SysState) (data : MessageData) :
    SysState × List Effect :=
  if !isValidPostMessageData data then (st, [])
  else
    match data with
    | .nonObject => (st, [])
    | .object o =>
      match getProp o "name" with
      | .str nm =>
        let messageName := sanitizeString nm
        if messageName == "sp.readyForPreload" then (st, [])
        else if messageName == "sp.showMessage" then (st, [Effect.scheduleDecline])
        else if messageName == "sp.hideMessage" then (markConsentProcessed st, [])
        else (st, [])
      | _ => (st, [])

/-- One event of the page's messaging channel. -/
structure MessageEvent where
  origin : String
  data : MessageData
deriving DecidableEq, Repr

/-- The `message` listener installed by
`CookieDecliner.setupPostMessageListener()`: origin gate, own-message gate,
SourcePoint-shape gate, then `handleSourcePointMessage`. -/
def onMessage (ownOrigin : String) (st : SysState) (ev : MessageEvent) :
    SysState × List Effect :=
  if !isTrustedOrigin ownOrigin ev.origin then (st, [])
  else if isOwnMessage ev.data then (st, [])
  else if isSourcePointMessage ownOrigin ev.origin ev.data then
    handleSourcePointMessage st ev.data
  else (st, [])

/-- The `MutationObserver` callback of `setupMutationObserver`: if a
processed flag is set it returns at once; otherwise each `childList`
mutation whose added elements carry cookie content schedules a re-scan
(whose body re-checks the flags and appears as a later `scan` trigger). -/
def observerCallback (st : SysState) (added : List (List NodeInfo)) :
    SysState × List Effect :=
  if st.csProcessed || st.apiProcessed then (st, [])
  else
    (st, added.filterMap (fun nodes =>
      if hasCookieContent nodes then some Effect.scheduleScan else none))

/-- The independent trigger invocations that can fire, in any order, on the
single-threaded event loop: a DOM scan (initial scan, a scheduled re-scan
body, or the scan part of a message-scheduled attempt), a
`declineAllConsent` invocation (API callback, iframe-load timer, or the
body of a scheduled decline), a mutation-observer callback batch, and a
`message` event. -/
inductive Trigger where
  | scan (dom : List Elem)
  | decline (now : Int) (env : Handler.DeclineEnv)
  | mutation (added : List (List NodeInfo))
  | message (ev : MessageEvent)

/-- One trigger invocation. The mutation trigger reaches the callback only
while the observer is connected. -/
def step (ownOrigin : String) (st : SysState) : Trigger → SysState × List Effect
  | .scan dom => findAndClickDeclineButton st dom
  | .decline now env => declineAllConsent st now env
  | .mutation added =>
    if st.observerConnected then observerCallback st added else (st, [])
  | .message ev => onMessage ownOrigin st ev

/-- Run a sequence of trigger invocations. -/
def run (ownOrigin : String) (st : SysState) : List Trigger → SysState
  | [] => st
  | t :: ts => run ownOrigin (step ownOrigin st t).1 ts

/-- Number of `declineAllConsent` invocations in a trigger sequence that
actually execute side effects (get past the processed and rate-limit
gates). -/
def effectiveDeclines (ownOrigin : String) (st : SysState) : List Trigger → Nat
  | [] => 0
  | .scan dom :: ts =>
    effectiveDeclines ownOrigin (step ownOrigin st (.scan dom)).1 ts
  | .decline now env :: ts =>
    (if (step ownOrigin st (.decline now env)).2 = [] then 0 else 1) +
      effectiveDeclines ownOrigin (step ownOrigin st (.decline now env)).1 ts
  | .mutation added :: ts =>
    effectiveDeclines ownOrigin (step ownOrigin st (.mutation added)).1 ts
  | .message ev :: ts =>
    effectiveDeclines ownOrigin (step ownOrigin st (.message ev)).1 ts

/-- State at orchestrator startup: nothing processed, no attempts recorded
(`lastDeclineAttempt = 0`), the mutation observer installed. -/
def initState : SysState :=
  { apiProcessed := false, lastDeclineAttempt := 0, declineAttemptCount := 0,
    csProcessed := false, processedElems := [], observerConnected := true }

end Decliner


namespace Decliner

open Handler Message DOMUtils

/-- Outcome characterization of `processElement`: either the element is
rejected by one of the three gates (no state change, no effects) or it is
clicked, recorded and consent is marked processed. -/
theorem processElement_cases (st : SysState) (e : Elem) :
    processElement st e = (st, [], false) ∨
    processElement st e =
      (markConsentProcessed { st with processedElems := e.nodeId :: st.processedElems },
       [Effect.click e.nodeId], true) := by
  unfold processElement
  split
  · exact Or.inl rfl
  split
  · exact Or.inl rfl
  split
  · exact Or.inl rfl
  · exact Or.inr rfl

/-- The scan loop preserves the attempt counter. -/
theorem scanElems_count (dom : List Elem) (st : SysState) :
    (scanElems st dom).1.declineAttemptCount = st.declineAttemptCount := by
  induction dom with
  | nil => rfl
  | cons e rest ih =>
    rcases processElement_cases st e with h | h <;>
      simp [scanElems, h, markConsentProcessed, ih]

/-- The scan loop preserves the API-processed flag when it is already set
(it can only turn the flag on, never off). -/
theorem scanElems_api (dom : List Elem) (st : SysState) (h : st.apiProcessed = true) :
    (scanElems st dom).1.apiProcessed = true := by
  induction dom with
  | nil => exact h
  | cons e rest ih =>
    rcases processElement_cases st e with hc | hc <;>
      simp [scanElems, hc, markConsentProcessed, ih]

/-- The scan loop only ever adds to the attempted-element set. -/
theorem scanElems_elems (dom : List Elem) (st : SysState) (x : Nat)
    (hx : x ∈ st.processedElems) : x ∈ (scanElems st dom).1.processedElems := by
  induction dom with
  | nil => exact hx
  | cons e rest ih =>
    rcases processElement_cases st e with h | h <;>
      simp [scanElems, h, markConsentProcessed, ih]
    exact Or.inr hx

/-- If the scan loop performed any side effect, the observer ends up
disconnected. -/
theorem scanElems_click_observer (dom : List Elem) (st : SysState)
    (h : (scanElems st dom).2 ≠ []) :
    (scanElems st dom).1.observerConnected = false := by
  induction dom with
  | nil => simp [scanElems] at h
  | cons e rest ih =>
    rcases processElement_cases st e with hc | hc
    · simp [scanElems, hc] at h ⊢
      exact ih h
    · simp [scanElems, hc, markConsentProcessed]

end Decliner

namespace Decliner

open Handler Message DOMUtils

/-- Once the `APIHandler` flag is set, the scan entry point is a no-op. -/
theorem findAndClick_processed (st : SysState) (dom : List Elem)
    (h : st.apiProcessed = true) :
    findAndClickDeclineButton st dom = (st, []) := by
  unfold findAndClickDeclineButton
  simp [h]

/-- Once the `APIHandler` flag is set, `declineAllConsent` is a no-op. -/
theorem declineAllConsent_processed (st : SysState) (now : Int) (env : DeclineEnv)
    (h : st.apiProcessed = true) :
    declineAllConsent st now env = (st, []) := by
  unfold declineAllConsent
  simp [h]

/-- Outcome characterization of `declineAllConsent`: either it is gated (no
state change, no effects), or it records the attempt — which requires the
counter to still be below the ceiling — and performs the vendor work. -/
theorem declineAllConsent_cases (st : SysState) (now : Int) (env : DeclineEnv) :
    declineAllConsent st now env = (st, []) ∨
    (st.declineAttemptCount < MAX_DECLINE_ATTEMPTS ∧
      (declineAllConsent st now env).2 = [Effect.vendorDecline] ∧
      (declineAllConsent st now env).1.declineAttemptCount = st.declineAttemptCount + 1 ∧
      (∀ x ∈ st.processedElems, x ∈ (declineAllConsent st now env).1.processedElems) ∧
      (declineAllConsent st now env).1.observerConnected = st.observerConnected) := by
  unfold declineAllConsent
  split
  · exact Or.inl rfl
  split
  · exact Or.inl rfl
  · rename_i hallow
    have hlt : st.declineAttemptCount < MAX_DECLINE_ATTEMPTS := by
      unfold shouldAllowDeclineAttempt at hallow
      by_contra hge
      simp at hallow hge
      omega
    refine Or.inr ⟨hlt, ?_⟩
    split <;> simp [setConsentProcessed, recordDeclineAttempt]

/-- The message handler can only apply `markConsentProcessed` or leave the
state unchanged; in particular it never touches the attempt counter or the
attempted-element set and never emits click or vendor effects. -/
theorem handleSourcePointMessage_cases (st : SysState) (data : MessageData) :
    (handleSourcePointMessage st data).1 = st ∨
    (handleSourcePointMessage st data).1 = markConsentProcessed st := by
  unfold handleSourcePointMessage
  split
  · exact Or.inl rfl
  split
  · exact Or.inl rfl
  · split
    · dsimp only
      split
      · exact Or.inl rfl
      split
      · exact Or.inl rfl
      split
      · exact Or.inr rfl
      · exact Or.inl rfl
    · exact Or.inl rfl

/-- The message listener can only apply `markConsentProcessed` or leave the
state unchanged. -/
theorem onMessage_cases (ownOrigin : String) (st : SysState) (ev : MessageEvent) :
    (onMessage ownOrigin st ev).1 = st ∨
    (onMessage ownOrigin st ev).1 = markConsentProcessed st := by
  unfold onMessage
  split
  · exact Or.inl rfl
  split
  · exact Or.inl rfl
  split
  · exact handleSourcePointMessage_cases st ev.data
  · exact Or.inl rfl

end Decliner


namespace Decliner

open Handler Message DOMUtils

/-- A scan trigger never changes the attempt counter. -/
theorem step_scan_count (ownOrigin : String) (st : SysState) (dom : List Elem) :
    (step ownOrigin st (.scan dom)).1.declineAttemptCount = st.declineAttemptCount := by
  simp only [step]
  unfold findAndClickDeclineButton
  split
  · rfl
  · exact scanElems_count dom st

/-- A mutation trigger never changes the state at all. -/
theorem step_mutation_state (ownOrigin : String) (st : SysState)
    (added : List (List NodeInfo)) :
    (step ownOrigin st (.mutation added)).1 = st := by
  simp only [step]
  split
  · unfold observerCallback
    split <;> rfl
  · rfl

/-- A message trigger never changes the attempt counter. -/
theorem step_message_count (ownOrigin : String) (st : SysState) (ev : MessageEvent) :
    (step ownOrigin st (.message ev)).1.declineAttemptCount = st.declineAttemptCount := by
  rcases onMessage_cases ownOrigin st ev with h | h <;>
    simp [step, h, markConsentProcessed]

/-- A message trigger never changes the attempted-element set. -/
theorem step_message_elems (ownOrigin : String) (st : SysState) (ev : MessageEvent) :
    (step ownOrigin st (.message ev)).1.processedElems = st.processedElems := by
  rcases onMessage_cases ownOrigin st ev with h | h <;>
    simp [step, h, markConsentProcessed]

/-- Every trigger preserves the attempt-count ceiling invariant. -/
theorem step_count_le (ownOrigin : String) (st : SysState) (t : Trigger)
    (h : st.declineAttemptCount ≤ Handler.MAX_DECLINE_ATTEMPTS) :
    (step ownOrigin st t).1.declineAttemptCount ≤ Handler.MAX_DECLINE_ATTEMPTS := by
  cases t with
  | scan dom => rw [step_scan_count]; exact h
  | decline now env =>
    rcases declineAllConsent_cases st now env with hc | ⟨hlt, _, hcount, _⟩
    · show (declineAllConsent st now env).1.declineAttemptCount ≤ _
      rw [hc]
      exact h
    · show (declineAllConsent st now env).1.declineAttemptCount ≤ _
      omega
  | mutation added => rw [step_mutation_state]; exact h
  | message ev => rw [step_message_count]; exact h

/-- The attempt counter never decreases. -/
theorem step_count_mono (ownOrigin : String) (st : SysState) (t : Trigger) :
    st.declineAttemptCount ≤ (step ownOrigin st t).1.declineAttemptCount := by
  cases t with
  | scan dom => rw [step_scan_count]
  | decline now env =>
    rcases declineAllConsent_cases st now env with hc | ⟨_, _, hcount, _⟩
    · show st.declineAttemptCount ≤ (declineAllConsent st now env).1.declineAttemptCount
      rw [hc]
    · show st.declineAttemptCount ≤ (declineAllConsent st now env).1.declineAttemptCount
      omega
  | mutation added => rw [step_mutation_state]
  | message ev => rw [step_message_count]

/-- The attempted-element set never shrinks. -/
theorem step_elems_mono (ownOrigin : String) (st : SysState) (t : Trigger)
    (x : Nat) (hx : x ∈ st.processedElems) :
    x ∈ (step ownOrigin st t).1.processedElems := by
  cases t with
  | scan dom =>
    simp only [step]
    unfold findAndClickDeclineButton
    split
    · exact hx
    · exact scanElems_elems dom st x hx
  | decline now env =>
    rcases declineAllConsent_cases st now env with hc | ⟨_, _, _, helems, _⟩
    · simpa [step, hc] using hx
    · exact helems x hx
  | mutation added => rw [step_mutation_state]; exact hx
  | message ev => rw [step_message_elems]; exact hx

/-- The processed flag is terminal: no trigger resets it. -/
theorem step_api_mono (ownOrigin : String) (st : SysState) (t : Trigger)
    (h : st.apiProcessed = true) :
    (step ownOrigin st t).1.apiProcessed = true := by
  cases t with
  | scan dom =>
    show (findAndClickDeclineButton st dom).1.apiProcessed = true
    rw [findAndClick_processed st dom h]
    exact h
  | decline now env =>
    show (declineAllConsent st now env).1.apiProcessed = true
    rw [declineAllConsent_processed st now env h]
    exact h
  | mutation added => rw [step_mutation_state]; exact h
  | message ev =>
    rcases onMessage_cases ownOrigin st ev with hc | hc <;>
      simp [step, hc, markConsentProcessed, h]

/-- Once the processed flag is set, no trigger changes the attempt
counter. -/
theorem step_count_processed (ownOrigin : String) (st : SysState) (t : Trigger)
    (h : st.apiProcessed = true) :
    (step ownOrigin st t).1.declineAttemptCount = st.declineAttemptCount := by
  cases t with
  | decline now env =>
    show (declineAllConsent st now env).1.declineAttemptCount = st.declineAttemptCount
    rw [declineAllConsent_processed st now env h]
  | scan dom => rw [step_scan_count]
  | mutation added => rw [step_mutation_state]
  | message ev => rw [step_message_count]

/-- Trace closure: once processed, the flag stays set and the counter stays
constant over every later trigger sequence. -/
theorem run_processed (ownOrigin : String) (st : SysState) (ts : List Trigger)
    (h : st.apiProcessed = true) :
    (run ownOrigin st ts).apiProcessed = true ∧
      (run ownOrigin st ts).declineAttemptCount = st.declineAttemptCount := by
  induction ts generalizing st with
  | nil => exact ⟨h, rfl⟩
  | cons t ts ih =>
    have h1 := step_api_mono ownOrigin st t h
    have h2 := step_count_processed ownOrigin st t h
    have h3 := ih (step ownOrigin st t).1 h1
    rw [run]
    exact ⟨h3.1, by rw [h3.2, h2]⟩

/-- Trace accounting: the final attempt counter is the initial counter plus
the number of effective decline attempts in the trace. -/
theorem run_count (ownOrigin : String) (st : SysState) (ts : List Trigger) :
    (run ownOrigin st ts).declineAttemptCount =
      st.declineAttemptCount + effectiveDeclines ownOrigin st ts := by
  induction ts generalizing st with
  | nil => rfl
  | cons t ts ih =>
    cases t with
    | decline now env =>
      rw [run, effectiveDeclines, ih (step ownOrigin st (.decline now env)).1]
      rcases declineAllConsent_cases st now env with hc | ⟨_, heff, hcount, _⟩
      · have hstep : step ownOrigin st (.decline now env) = (st, []) := hc
        simp [hstep]
      · have h1 : (step ownOrigin st (.decline now env)).2 = [Effect.vendorDecline] := heff
        have h2 : (step ownOrigin st (.decline now env)).1.declineAttemptCount =
            st.declineAttemptCount + 1 := hcount
        simp [h1, h2]
        omega
    | scan dom =>
      rw [run, effectiveDeclines, ih (step ownOrigin st (.scan dom)).1, step_scan_count]
    | mutation added =>
      rw [run, effectiveDeclines, ih (step ownOrigin st (.mutation added)).1, step_mutation_state]
    | message ev =>
      rw [run, effectiveDeclines, ih (step ownOrigin st (.message ev)).1, step_message_count]

/-- Trace closure of the ceiling invariant. -/
theorem run_count_le (ownOrigin : String) (st : SysState) (ts : List Trigger)
    (h : st.declineAttemptCount ≤ Handler.MAX_DECLINE_ATTEMPTS) :
    (run ownOrigin st ts).declineAttemptCount ≤ Handler.MAX_DECLINE_ATTEMPTS := by
  induction ts generalizing st with
  | nil => exact h
  | cons t ts ih => exact ih (step ownOrigin st t).1 (step_count_le ownOrigin st t h)

end Decliner

/-- A state in which consent has already been resolved (`APIHandler` flag
set): used to instantiate the processed-state theorems. -/
def processedState : SysState :=
  { apiProcessed := true, lastDeclineAttempt := 1000, declineAttemptCount := 2,
    csProcessed := false, processedElems := [5], observerConnected := true }

/-- C1 (at-most-once activation): every successful resolution — a DOM click
(`processElement` → `markConsentProcessed`), a successful vendor-API
decline (`setConsentProcessed(true)`), or a banner-hidden message — leaves
the `APIHandler` processed flag set; from any such state every later
`findAndClickDeclineButton` (scan) or `declineAllConsent` invocation is a
pure no-op with no click/decline side effect, the processed flag and the
attempt counter stay frozen over every later trigger sequence, and, over
arbitrary states, every trigger monotonically preserves the attempt
counter and the attempted-element set. -/
theorem at_most_once_activation (ownOrigin : String) (st : SysState)
    (h : st.apiProcessed = true) :
    (∀ dom, Decliner.step ownOrigin st (.scan dom) = (st, []))
  ∧ (∀ now env, Decliner.step ownOrigin st (.decline now env) = (st, []))
  ∧ (∀ ts, (Decliner.run ownOrigin st ts).apiProcessed = true
        ∧ (Decliner.run ownOrigin st ts).declineAttemptCount = st.declineAttemptCount)
  ∧ (∀ st' t, st'.declineAttemptCount ≤ (Decliner.step ownOrigin st' t).1.declineAttemptCount)
  ∧ (∀ st' t x, x ∈ st'.processedElems →
        x ∈ (Decliner.step ownOrigin st' t).1.processedElems) := by
  refine ⟨?_, ?_, ?_, ?_, ?_⟩
  · intro dom
    exact Decliner.findAndClick_processed st dom h
  · intro now env
    exact Decliner.declineAllConsent_processed st now env h
  · intro ts
    exact Decliner.run_processed ownOrigin st ts h
  · intro st' t
    exact Decliner.step_count_mono ownOrigin st' t
  · intro st' t x hx
    exact Decliner.step_elems_mono ownOrigin st' t x hx

/-- Witness for C1 at a concrete processed state and concrete triggers. -/
theorem at_most_once_activation_witness :
    Decliner.step "https://site.example" processedState (.scan []) = (processedState, [])
  ∧ Decliner.step "https://site.example" processedState
      (.decline 99999 ⟨true⟩) = (processedState, []) :=
  ⟨(at_most_once_activation "https://site.example" processedState rfl).1 [],
   (at_most_once_activation "https://site.example" processedState rfl).2.1 99999 ⟨true⟩⟩

/-- A state whose attempt counter has reached the ceiling. -/
def throttledState : SysState :=
  { apiProcessed := false, lastDeclineAttempt := 1000, declineAttemptCount := 5,
    csProcessed := false, processedElems := [], observerConnected := true }

/-- C3 (rate limiting): `declineAllConsent` performs no side effect and
leaves the state untouched whenever fewer than `RATE_LIMIT_MS = 2000`
milliseconds have elapsed since the last recorded attempt or the attempt
counter has reached `MAX_DECLINE_ATTEMPTS = 5`; and over any trigger
sequence of a page load (starting at `initState`) at most 5 decline
requests ever execute side effects. -/
theorem rate_limit_bounds (ownOrigin : String) (st : SysState) (now : Int)
    (env : Handler.DeclineEnv)
    (h : now - st.lastDeclineAttempt < Handler.RATE_LIMIT_MS ∨
         Handler.MAX_DECLINE_ATTEMPTS ≤ st.declineAttemptCount) :
    Handler.declineAllConsent st now env = (st, [])
  ∧ (∀ ts, Decliner.effectiveDeclines ownOrigin Decliner.initState ts ≤
        Handler.MAX_DECLINE_ATTEMPTS) := by
  constructor
  · have hallow : Handler.shouldAllowDeclineAttempt st now = false := by
      unfold Handler.shouldAllowDeclineAttempt
      rcases h with h | h
      · split
        · rfl
        · simp [h]
      · simp [h]
    unfold Handler.declineAllConsent
    rw [hallow]
    split <;> rfl
  · intro ts
    have h0 := Decliner.run_count ownOrigin Decliner.initState ts
    have h1 := Decliner.run_count_le ownOrigin Decliner.initState ts
      (by simp [Decliner.initState, Handler.MAX_DECLINE_ATTEMPTS])
    rw [h0] at h1
    simpa [Decliner.initState] using h1

/-- Witness for C3: with the counter at the ceiling, a decline request long
after the last attempt is still a no-op. -/
theorem rate_limit_bounds_witness :
    Handler.declineAllConsent throttledState 100000 ⟨true⟩ = (throttledState, []) :=
  (rate_limit_bounds "https://site.example" throttledState 100000 ⟨true⟩
    (Or.inr (by decide))).1

/-- C9 counterexample: the vendor-API success path
(`setConsentProcessed(true)`) marks consent processed but does NOT
disconnect the mutation observer — only `markConsentProcessed` in the
content script does. Starting from `initState` (observer installed), one
successful `declineAllConsent` leaves the observer connected. -/
theorem observer_survives_api_decline :
    ((Decliner.step "https://site.example" Decliner.initState
        (.decline 2000 ⟨true⟩)).1.apiProcessed = true)
  ∧ ((Decliner.step "https://site.example" Decliner.initState
        (.decline 2000 ⟨true⟩)).1.observerConnected = true) := by
  decide

/-- C9 amended: the DOM-click and banner-hidden paths
(`markConsentProcessed`) disconnect the observer at the moment processing
is marked; the vendor-API path leaves the observer connected, but once
either processed flag is set every observer callback returns without
performing or scheduling any scan work. -/
theorem observer_shutdown_on_mark (ownOrigin : String) :
    (∀ st, (Decliner.markConsentProcessed st).observerConnected = false)
  ∧ (∀ st dom, (Decliner.findAndClickDeclineButton st dom).2 ≠ [] →
        (Decliner.findAndClickDeclineButton st dom).1.observerConnected = false)
  ∧ (∀ st ev, st.csProcessed = false →
        (Decliner.onMessage ownOrigin st ev).1.csProcessed = true →
        (Decliner.onMessage ownOrigin st ev).1.observerConnected = false)
  ∧ (∀ st added, (st.csProcessed || st.apiProcessed) = true →
        Decliner.step ownOrigin st (.mutation added) = (st, [])) := by
  refine ⟨fun st => rfl, ?_, ?_, ?_⟩
  · intro st dom hne
    unfold Decliner.findAndClickDeclineButton at hne ⊢
    split at hne
    · simp at hne
    · rename_i hguard
      rw [if_neg hguard]
      exact Decliner.scanElems_click_observer dom st hne
  · intro st ev h1 h2
    rcases Decliner.onMessage_cases ownOrigin st ev with hc | hc
    · rw [hc] at h2
      rw [h1] at h2
      cases h2
    · rw [hc]
      rfl
  · intro st added hguard
    simp only [Decliner.step]
    split
    · unfold Decliner.observerCallback
      rw [if_pos hguard]
    · rfl

/-- Witness for C9's amended statement: with the vendor-API flag set, a
mutation batch produces no state change and no effects. -/
theorem observer_shutdown_on_mark_witness :
    Decliner.step "https://site.example" processedState (.mutation [[]]) =
      (processedState, []) :=
  (observer_shutdown_on_mark "https://site.example").2.2.2 processedState [[]] (by decide)

/-- A message whose payload fails validation leaves the listener without
any state change or effect, whatever the origin. -/
theorem onMessage_invalid (ownOrigin : String) (st : SysState)
    (ev : Decliner.MessageEvent)
    (h : Message.isValidPostMessageData ev.data = false) :
    Decliner.onMessage ownOrigin st ev = (st, []) := by
  unfold Decliner.onMessage Decliner.handleSourcePointMessage
  split
  · rfl
  split
  · rfl
  split
  · simp [h]
  · rfl

/-- C8 (origin gate): a message event whose origin is neither the page's
own origin nor — after URL parsing — an exact hostname or subdomain of a
registry entry is dropped with no state change and no effect, regardless
of payload shape; and the decision is made on the parsed hostname, not by
a substring test: an origin that merely contains a registry entry as a
substring is still rejected. -/
theorem origin_gate_rejects (ownOrigin : String) (st : SysState)
    (ev : Decliner.MessageEvent)
    (hown : ev.origin ≠ ownOrigin)
    (hreg : (Message.parseURLHostname ev.origin).all (fun host =>
        Message.trustedDomains.all (fun domain =>
          !(host == domain) && !jsEndsWith host ("." ++ domain))) = true) :
    Message.isTrustedOrigin ownOrigin ev.origin = false
  ∧ Decliner.onMessage ownOrigin st ev = (st, [])
  ∧ strIncludes "https://cmp.quantcast.com.evil.example" "cmp.quantcast.com" = true
  ∧ Message.isTrustedOrigin "https://site.example"
      "https://cmp.quantcast.com.evil.example" = false := by
  have hbeq : (ev.origin == ownOrigin) = false := by
    simpa using hown
  have ht : Message.isTrustedOrigin ownOrigin ev.origin = false := by
    unfold Message.isTrustedOrigin
    rw [if_neg (by simp [hbeq])]
    cases hp : Message.parseURLHostname ev.origin with
    | none => rfl
    | some host =>
      rw [hp] at hreg
      simp only [Option.all, List.all_eq_true] at hreg
      simp only [List.any_eq_false]
      intro domain hd
      have hdom := hreg domain hd
      simp at hdom
      simp [hdom.1, hdom.2]
  refine ⟨ht, ?_, by decide, by decide⟩
  unfold Decliner.onMessage
  simp [ht]

/-- Witness for C8: a well-formed (even valid) payload from an unknown
origin is dropped. -/
theorem origin_gate_rejects_witness :
    Decliner.onMessage "https://site.example" Decliner.initState
      ⟨"https://evil.example",
       .object ⟨[("name", JSVal.str "sp.hideMessage")], true, false, false, true⟩⟩ =
      (Decliner.initState, []) :=
  (origin_gate_rejects "https://site.example" Decliner.initState
    ⟨"https://evil.example",
     .object ⟨[("name", JSVal.str "sp.hideMessage")], true, false, false, true⟩⟩
    (by decide) (by decide)).2.1

/-- The banner-hidden payload exactly as a consent iframe delivers it: a
plain structured-cloned object with a single own property
`name = "sp.hideMessage"`, whose prototype is `Object.prototype`
(`nullProto = false` — the structured-clone algorithm always produces
such objects). -/
def hideMessagePayload : JSObject :=
  { ownProps := [("name", JSVal.str "sp.hideMessage")], nullProto := false,
    frozen := false, sealed := false, jsonSerializable := true }

/-- C2 (code bug): a trusted-origin `sp.hideMessage` message from a plain
structured-cloned object passes the origin and SourcePoint-shape gates but
is rejected by `isValidPostMessageData`, because the dangerous-key check
uses the JavaScript `in` operator, and every dangerous key (`__proto__`,
`toString`, …) is `in` every object that inherits from
`Object.prototype`; consent is therefore never marked processed on this
path. Only a `null`-prototype object — which `postMessage` never
delivers — would pass the gate and reach `markConsentProcessed`. -/
theorem hide_message_never_marks_processed :
    Message.isTrustedOrigin "https://news.example" "https://notice.sp-prod.net" = true
  ∧ Message.isSourcePointMessage "https://news.example" "https://notice.sp-prod.net"
      (.object hideMessagePayload) = true
  ∧ Message.keyIn hideMessagePayload "__proto__" = true
  ∧ Message.isValidPostMessageData (.object hideMessagePayload) = false
  ∧ Decliner.onMessage "https://news.example" Decliner.initState
      ⟨"https://notice.sp-prod.net", .object hideMessagePayload⟩ =
      (Decliner.initState, [])
  ∧ Message.isValidPostMessageData
      (.object { hideMessagePayload with nullProto := true }) = true
  ∧ (Decliner.onMessage "https://news.example" Decliner.initState
      ⟨"https://notice.sp-prod.net",
       .object { hideMessagePayload with nullProto := true }⟩).1.csProcessed = true := by
  decide

/-- A frozen (but otherwise fully well-formed, null-prototype) payload. -/
def frozenPayload : JSObject :=
  { ownProps := [("name", JSVal.str "sp.hideMessage")], nullProto := true,
    frozen := true, sealed := false, jsonSerializable := true }

/-- C10: `isValidPostMessageData` rejects every frozen or sealed payload
object and every payload `JSON.stringify` cannot serialize (circular
reference), so such messages are never interpreted — the listener performs
no state change for them — even from a trusted origin and with well-typed
`name`/`type`/`choice` fields. -/
theorem frozen_sealed_unserializable_rejected (o : JSObject)
    (h : o.frozen = true ∨ o.sealed = true ∨ o.jsonSerializable = false) :
    Message.isValidPostMessageData (.object o) = false
  ∧ (∀ ownOrigin origin (st : SysState),
      Decliner.onMessage ownOrigin st ⟨origin, .object o⟩ = (st, [])) := by
  have hv : Message.isValidPostMessageData (.object o) = false := by
    simp only [Message.isValidPostMessageData]
    split
    · rfl
    · rcases h with h | h | h <;> simp [h]
  exact ⟨hv, fun ownOrigin origin st => onMessage_invalid ownOrigin st _ hv⟩

/-- Witness for C10 at a concrete frozen payload. -/
theorem frozen_sealed_unserializable_rejected_witness :
    Message.isValidPostMessageData (.object frozenPayload) = false :=
  (frozen_sealed_unserializable_rejected frozenPayload (Or.inl rfl)).1

/-- C4 (exclusion wins over inclusion): any element whose combined own
text/class/id/aria-label contains an exclusion keyword is rejected by
`isCookieRelatedButton`, regardless of its own cookie keywords and of any
ancestor cookie context. -/
theorem exclusion_wins (e : Elem) (h : DOMUtils.hasExcludeKeyword e = true) :
    DOMUtils.isCookieRelatedButton e = false := by
  unfold DOMUtils.isCookieRelatedButton
  simp [h]

/-- A button labeled `Subscribe to our newsletter` nested inside a div
classed `cookie-banner`. -/
def subscribeBtn : Elem :=
  { nodeId := 1, tag := "button", textContent := "Subscribe to our newsletter",
    className := "", id := "", ariaLabel := none, visible := true,
    ancestors := [{ textContent := "Subscribe to our newsletter",
                    className := "cookie-banner", id := "" }] }

/-- Witness for C4 at the claim's concrete example. -/
theorem exclusion_wins_witness :
    DOMUtils.isCookieRelatedButton subscribeBtn = false :=
  exclusion_wins subscribeBtn (by decide)

/-- The spec-level reading of the ancestor walk: some ancestor among the
first 5 carries a `COOKIE_KEYWORDS` match in its text/class/id. -/
def ancestorCookieEvidence (e : Elem) : Bool :=
  (e.ancestors.take 5).any (fun p =>
    Keywords.COOKIE_KEYWORDS.any (fun keyword =>
      strIncludes (DOMUtils.parentContentOf p) keyword))

/-- The source's counting loop visits exactly the first `5 - n` remaining
ancestors. -/
theorem hasParentAux_take (l : List NodeInfo) (n : Nat) (hn : n ≤ 5) :
    DOMUtils.hasParentCookieContextAux l n =
      (l.take (5 - n)).any (fun p =>
        Keywords.COOKIE_KEYWORDS.any (fun keyword =>
          strIncludes (DOMUtils.parentContentOf p) keyword)) := by
  induction l generalizing n with
  | nil => simp [DOMUtils.hasParentCookieContextAux]
  | cons p rest ih =>
    simp only [DOMUtils.hasParentCookieContextAux]
    by_cases h5 : n < 5
    · rw [if_pos h5]
      have htk : 5 - n = (5 - (n + 1)) + 1 := by omega
      rw [htk, List.take_succ_cons, List.any_cons, ih (n + 1) (by omega)]
      split
      · rename_i hp
        simp [hp]
      · rename_i hp
        simp only [Bool.not_eq_true] at hp
        simp [hp]
    · rw [if_neg h5]
      have h0 : 5 - n = 0 := by omega
      simp [h0]

/-- A button labeled `OK`, two levels below a div with id `gdpr-notice`. -/
def okButtonDepth2 : Elem :=
  { nodeId := 2, tag := "button", textContent := "OK",
    className := "", id := "", ariaLabel := none, visible := true,
    ancestors := [{ textContent := "OK", className := "", id := "" },
                  { textContent := "OK", className := "", id := "gdpr-notice" }] }

/-- The same button six levels deep: five keyword-free ancestors, the
`gdpr-notice` div sixth. -/
def okButtonDepth6 : Elem :=
  { nodeId := 3, tag := "button", textContent := "OK",
    className := "", id := "", ariaLabel := none, visible := true,
    ancestors := [{ textContent := "OK", className := "", id := "" },
                  { textContent := "OK", className := "", id := "" },
                  { textContent := "OK", className := "", id := "" },
                  { textContent := "OK", className := "", id := "" },
                  { textContent := "OK", className := "", id := "" },
                  { textContent := "OK", className := "", id := "gdpr-notice" }] }

/-- C5 (ancestor search depth bound): for an element with no exclusion
keyword and no cookie keyword of its own, `isCookieRelatedButton` accepts
it exactly when one of its first 5 ancestors carries cookie-keyword
evidence in its text/class/id; the `OK` button 2 levels inside
`div#gdpr-notice` is accepted, the same button 6 levels deep is
rejected. -/
theorem ancestor_depth_bound (e : Elem)
    (hex : DOMUtils.hasExcludeKeyword e = false)
    (hown : DOMUtils.hasOwnCookieKeyword e = false) :
    (DOMUtils.isCookieRelatedButton e = true ↔ ancestorCookieEvidence e = true)
  ∧ DOMUtils.isCookieRelatedButton okButtonDepth2 = true
  ∧ DOMUtils.isCookieRelatedButton okButtonDepth6 = false := by
  refine ⟨?_, by decide, by decide⟩
  unfold DOMUtils.isCookieRelatedButton
  rw [hex, hown]
  unfold DOMUtils.hasParentCookieContext ancestorCookieEvidence
  rw [hasParentAux_take e.ancestors 0 (by omega)]
  simp

/-- Witness for C5: the accepted concrete example, via the theorem's
equivalence. -/
theorem ancestor_depth_bound_witness :
    DOMUtils.isCookieRelatedButton okButtonDepth2 = true :=
  ((ancestor_depth_bound okButtonDepth2 (by decide) (by decide)).1).mpr (by decide)

namespace Selector

/-- Unfolding equation of `includesAux` at an empty haystack. -/
theorem includesAux_nil (n : List Char) : includesAux n [] = n.isEmpty := rfl

/-- Unfolding equation of `includesAux` at a nonempty haystack. -/
theorem includesAux_cons (n : List Char) (c : Char) (cs : List Char) :
    includesAux n (c :: cs) = (n.isPrefixOf (c :: cs) || includesAux n cs) := rfl

/-- A list is a prefix of itself followed by anything. -/
theorem isPrefixOf_append_self (l r : List Char) : l.isPrefixOf (l ++ r) = true := by
  induction l with
  | nil => simp [List.isPrefixOf]
  | cons c cs ih => simp [List.isPrefixOf, ih]

/-- Boolean prefix test gives a decomposition. -/
theorem isPrefixOf_exists (n l : List Char) (h : n.isPrefixOf l = true) :
    ∃ post, l = n ++ post := by
  induction n generalizing l with
  | nil => exact ⟨l, rfl⟩
  | cons c cs ih =>
    cases l with
    | nil => simp [List.isPrefixOf] at h
    | cons d ds =>
      simp only [List.isPrefixOf, Bool.and_eq_true, beq_iff_eq] at h
      obtain ⟨post, hp⟩ := ih ds h.2
      exact ⟨post, by simp [h.1, hp]⟩

/-- JavaScript `includes` agrees with substring decomposition. -/
theorem includesAux_iff (n l : List Char) :
    includesAux n l = true ↔ ∃ pre post, l = pre ++ n ++ post := by
  constructor
  · intro h
    induction l with
    | nil =>
      simp only [includesAux_nil, List.isEmpty_iff] at h
      exact ⟨[], [], by simp [h]⟩
    | cons c cs ih =>
      rw [includesAux_cons, Bool.or_eq_true] at h
      rcases h with h | h
      · obtain ⟨post, hp⟩ := isPrefixOf_exists n (c :: cs) h
        exact ⟨[], post, by simpa using hp⟩
      · obtain ⟨pre, post, hp⟩ := ih h
        exact ⟨c :: pre, post, by simp [hp]⟩
  · rintro ⟨pre, post, rfl⟩
    induction pre with
    | nil =>
      cases hn : n with
      | nil =>
        cases post with
        | nil => rfl
        | cons d ds =>
          simp only [List.nil_append]
          rw [includesAux_cons]
          simp [List.isPrefixOf]
      | cons a as =>
        simp only [List.nil_append, List.cons_append]
        rw [includesAux_cons]
        have h2 := isPrefixOf_append_self (a :: as) post
        simp only [List.cons_append] at h2
        simp [h2]
    | cons c pre ih =>
      simp only [List.append_assoc] at ih ⊢
      simp only [List.cons_append]
      rw [includesAux_cons]
      simp [ih]

/-- C6's substring reading of `strIncludes`. -/
theorem strIncludes_iff (hay needle : String) :
    strIncludes hay needle = true ↔
      ∃ pre post, hay.toList = pre ++ needle.toList ++ post :=
  includesAux_iff needle.toList hay.toList

end Selector

namespace Selector

/-- A quote character is not `)`. -/
theorem isQuote_ne_rparen (q : Char) (hq : isQuote q = true) : q ≠ ')' := by
  unfold isQuote at hq
  rcases Bool.or_eq_true_iff.mp hq with h | h <;>
    · rw [eq_of_beq h]
      decide

/-- While quote-free text remains before the closing `["']\)`, the lazy
matcher cannot stop. -/
theorem stopsHere_false (t : List Char) (q : Char) (hq : isQuote q = true)
    (hne : t ≠ []) (hnq : ∀ c ∈ t, isQuote c = false) :
    stopsHere (t ++ [q, ')']) = false := by
  cases t with
  | nil => cases hne rfl
  | cons c1 rest =>
    cases rest with
    | nil =>
      simp only [List.cons_append, List.nil_append, stopsHere]
      have := isQuote_ne_rparen q hq
      simp [this]
    | cons c2 rest2 =>
      simp only [List.cons_append, stopsHere]
      have h1 : isQuote c1 = false := hnq c1 (by simp)
      simp [h1]

/-- Closed-form behaviour of the lazy `(.+?)["']\)` matcher on a quote-free
nonempty text followed by the closing quote and parenthesis. -/
theorem splitText_closed (t : List Char) (q : Char) (hq : isQuote q = true)
    (hne : t ≠ []) (hnq : ∀ c ∈ t, isQuote c = false) :
    splitText (t ++ [q, ')']) = some (t, []) := by
  induction t with
  | nil => cases hne rfl
  | cons c rest ih =>
    rw [List.cons_append, splitText]
    cases rest with
    | nil =>
      have hstop : stopsHere ([q, ')']) = true := by
        simp [stopsHere, hq]
      simp only [List.nil_append]
      rw [if_pos hstop]
      rfl
    | cons c2 rest2 =>
      have hstop := stopsHere_false (c2 :: rest2) q hq (by simp)
        (fun x hx => hnq x (by simp [hx]))
      simp only [List.cons_append] at hstop
      rw [if_neg (by simp [hstop])]
      rw [ih (by simp) (fun x hx => hnq x (by simp [hx]))]

/-- `tryParseAt` fails at any position that does not start with `:`. -/
theorem tryParseAt_cons_ne (c : Char) (l : List Char) (h : c ≠ ':') :
    tryParseAt (c :: l) = none := by
  unfold tryParseAt
  have hp : marker.isPrefixOf (c :: l) = false := by
    simp only [marker, List.isPrefixOf, Bool.and_eq_false_iff]
    left
    simpa using fun hc => h hc.symm
  simp [hp]

/-- `tryParseAt` succeeds exactly at the `:contains("` boundary of a
well-formed contains-selector. -/
theorem tryParseAt_marker (text : List Char) (hne : text ≠ [])
    (hnq : ∀ c ∈ text, isQuote c = false) :
    tryParseAt (marker ++ '"' :: (text ++ ['"', ')'])) = some text := by
  unfold tryParseAt
  rw [if_pos (isPrefixOf_append_self marker _)]
  have hdrop : (marker ++ '"' :: (text ++ ['"', ')'])).drop 10 =
      '"' :: (text ++ ['"', ')']) := by
    simp [marker]
  rw [hdrop]
  dsimp only
  rw [if_pos (show isQuote '"' = true by decide)]
  rw [splitText_closed text '"' (by decide) hne hnq]

/-- Unfolding equation of the `(.*?)` scanner on an empty rest. -/
theorem parseContainsAux_nil (acc : List Char) : parseContainsAux acc [] = none := rfl

/-- Unfolding equation of the `(.*?)` scanner on a nonempty rest. -/
theorem parseContainsAux_cons (acc : List Char) (c : Char) (cs : List Char) :
    parseContainsAux acc (c :: cs) =
      match tryParseAt (c :: cs) with
      | some t => some (acc.reverse, t)
      | none => parseContainsAux (c :: acc) cs := rfl

/-- The scanner stops at the first position where the rest of the fine
regex matches. -/
theorem parseContainsAux_found (acc l t : List Char)
    (h : tryParseAt l = some t) (hl : l ≠ []) :
    parseContainsAux acc l = some (acc.reverse, t) := by
  cases l with
  | nil => cases hl rfl
  | cons c cs => rw [parseContainsAux_cons, h]

/-- The scanner walks past a position where the rest of the fine regex does
not match. -/
theorem parseContainsAux_skip (acc : List Char) (c : Char) (cs : List Char)
    (h : tryParseAt (c :: cs) = none) :
    parseContainsAux acc (c :: cs) = parseContainsAux (c :: acc) cs := by
  rw [parseContainsAux_cons, h]

/-- The lazy `(.*?)` scanner walks over a colon-free base selector and
captures it, then captures the text. -/
theorem parseContainsAux_append (scope : List Char) (acc text : List Char)
    (hs : ∀ c ∈ scope, c ≠ ':') (hne : text ≠ [])
    (hnq : ∀ c ∈ text, isQuote c = false) :
    parseContainsAux acc (scope ++ (marker ++ '"' :: (text ++ ['"', ')']))) =
      some (acc.reverse ++ scope, text) := by
  induction scope generalizing acc with
  | nil =>
    simp only [List.nil_append]
    rw [parseContainsAux_found acc _ text (tryParseAt_marker text hne hnq)
      (by simp [marker])]
    simp
  | cons c cs ih =>
    simp only [List.cons_append]
    rw [parseContainsAux_skip acc c _ (tryParseAt_cons_ne c _ (hs c (by simp)))]
    rw [ih (c :: acc) (fun x hx => hs x (by simp [hx]))]
    simp

/-- Full closed form of `findElementsWithText`'s regex on a well-formed
contains-selector. -/
theorem parseContains_closed (scope text : List Char)
    (hs : ∀ c ∈ scope, c ≠ ':') (hne : text ≠ [])
    (hnq : ∀ c ∈ text, isQuote c = false) :
    parseContains (scope ++ (marker ++ '"' :: (text ++ ['"', ')']))) =
      some (scope, text) := by
  unfold parseContains
  rw [parseContainsAux_append scope [] text hs hne hnq]
  simp

end Selector

namespace Selector

/-- Unfolding equation of the gate scanner on a nonempty list. -/
theorem matchesContainsGate_cons (c : Char) (cs : List Char) :
    matchesContainsGate (c :: cs) = (gateAt (c :: cs) || matchesContainsGate cs) := rfl

/-- A position carrying `gateAt` makes the whole gate regex match. -/
theorem matchesContainsGate_head (c : Char) (cs : List Char)
    (h : gateAt (c :: cs) = true) : matchesContainsGate (c :: cs) = true := by
  rw [matchesContainsGate_cons, h]
  rfl

/-- The gate matches at the `:contains("` boundary: at least one character
(the opening quote of the text capture counts for `.+`) precedes the later
closing parenthesis. -/
theorem gateAt_marker (text : List Char) :
    gateAt (marker ++ '"' :: (text ++ ['"', ')'])) = true := by
  unfold gateAt
  rw [isPrefixOf_append_self]
  have hdrop : (marker ++ '"' :: (text ++ ['"', ')'])).drop 10 =
      '"' :: (text ++ ['"', ')']) := by
    simp [marker]
  rw [hdrop]
  simp

/-- The coarse gate regex matches every well-formed contains-selector. -/
theorem gate_closed (scope text : List Char) :
    matchesContainsGate (scope ++ (marker ++ '"' :: (text ++ ['"', ')']))) = true := by
  induction scope with
  | nil =>
    simp only [List.nil_append]
    exact matchesContainsGate_head ':' _ (gateAt_marker text)
  | cons c cs ih =>
    simp only [List.cons_append]
    rw [matchesContainsGate_cons, ih]
    simp

end Selector

/-- Characters of a concatenation of strings. -/
theorem toList_append (a b : String) : (a ++ b).toList = a.toList ++ b.toList := by
  cases a
  cases b
  rfl

/-- A string is rebuilt from its characters. -/
theorem mk_toList (s : String) : String.mk s.toList = s := rfl

/-- The single REJECT ALL button of the concrete test document. -/
def rejectAllBtn : Elem :=
  { nodeId := 7, tag := "button", textContent := "REJECT ALL", className := "",
    id := "", ariaLabel := none, visible := true, ancestors := [] }

/-- A concrete browser document: on the malformed selectors `""` and `a[`,
`querySelectorAll` throws (`none`), as the DOM standard prescribes;
`button` matches the single REJECT ALL button; every other selector
matches nothing. -/
def browserDoc : Doc :=
  { queryAll := fun s =>
      if s == "" || s == "a[" then none
      else if s == "button" then some [rejectAllBtn] else some [] }

/-- C6 (case-insensitive substring text matching): for a rule
`<scope>:contains("<text>")` with a colon-free scope and a quote-free
nonempty text, `findElementsBySelector` returns exactly the elements that
`querySelectorAll(scope)` yields whose lower-cased text content contains
the lower-cased text — where `strIncludes` is substring containment, not
exact equality. -/
theorem contains_rule_matching (doc : Doc) (scope text : String) (es : List Elem)
    (hs : ∀ c ∈ scope.toList, c ≠ ':')
    (hnq : ∀ c ∈ text.toList, Selector.isQuote c = false)
    (hne : text.toList ≠ [])
    (hq : doc.queryAll scope = some es) :
    DOMUtils.findElementsBySelector doc (scope ++ ":contains(\"" ++ text ++ "\")") =
      some (es.filter (fun e =>
        strIncludes (jsToLower e.textContent) (jsToLower text)))
  ∧ (∀ hay needle : String, strIncludes hay needle = true ↔
      ∃ pre post, hay.toList = pre ++ needle.toList ++ post) := by
  refine ⟨?_, Selector.strIncludes_iff⟩
  have htl : (scope ++ ":contains(\"" ++ text ++ "\")").toList =
      scope.toList ++ (Selector.marker ++ '"' :: (text.toList ++ ['"', ')'])) := by
    rw [toList_append, toList_append, toList_append]
    rw [show (":contains(\"" : String).toList = Selector.marker ++ ['"'] from rfl]
    rw [show ("\")" : String).toList = ['"', ')'] from rfl]
    simp
  unfold DOMUtils.findElementsBySelector
  rw [htl, if_pos (Selector.gate_closed scope.toList text.toList)]
  unfold DOMUtils.findElementsWithText
  rw [htl, Selector.parseContains_closed scope.toList text.toList hs hne hnq]
  dsimp only
  rw [mk_toList scope, hq]
  simp only [mk_toList text]

/-- Witness for C6: `button:contains("Reject all")` matches the button
whose text is `REJECT ALL`. -/
theorem contains_rule_matching_witness :
    DOMUtils.findElementsBySelector browserDoc "button:contains(\"Reject all\")" =
      some [rejectAllBtn] := by
  have h := (contains_rule_matching browserDoc "button" "Reject all" [rejectAllBtn]
    (by decide) (by decide) (by decide) (by decide)).1
  rw [show ("button" ++ ":contains(\"" ++ "Reject all" ++ "\")" : String) =
    "button:contains(\"Reject all\")" from by decide] at h
  rw [h]
  decide

/-- C7 (code bug): a contains-rule whose captured scope is empty or
malformed lets the native `querySelectorAll` exception escape from
`findElementsBySelector` (result `none`): the selector passes the coarse
gate, the fine regex parses it — for `:contains("x")` the base capture is
the empty string, and the `= '*'` destructuring default never fires
because an empty capture is `''`, not `undefined` — and
`findElementsWithText` calls `querySelectorAll` outside any `try/catch`.
The structural branch, by contrast, does recover (`a[` alone yields
`[]`). -/
theorem contains_rule_exception_escapes :
    Selector.matchesContainsGate (String.toList ":contains(\"x\")") = true
  ∧ Selector.parseContains (String.toList ":contains(\"x\")") = some ([], ['x'])
  ∧ DOMUtils.findElementsBySelector browserDoc ":contains(\"x\")" = none
  ∧ DOMUtils.findElementsBySelector browserDoc "a[:contains(\"z\")]" = none
  ∧ DOMUtils.findElementsBySelector browserDoc "a[" = some [] := by
  decide
